import Mathlib

/-!
Verification development for the trello-mcp-server repository.

The repository contains three near-identical adapters around the Trello REST
API:

* `src/mcp.js` (first part): an MCP stdio server whose forwarding layer is
  `trelloFetch` / `appendAuthParams` / `downloadAttachment`;
* `src/mcp.js` (second part) = `src/unnamed/part_000`: an express HTTP proxy
  whose forwarding layer is `trelloRequest` (options-based, identical request
  building to `trelloFetch`), `appendAuthParams` and `fetchAttachmentBinary`;
* `src/index.js`: a fastmcp server whose `trelloRequest(endpoint, method,
  body)` builds its URL by plain string concatenation.

The definitions below are a shallow embedding of those JavaScript functions.
URLs are modelled structurally: a path plus an ordered association list of
query parameters, mirroring the WHATWG `URL` / `URLSearchParams` objects used
by the first two variants (`searchParams.set` replaces the first matching
entry, deletes any further matching entries, and appends when absent;
`searchParams.has` tests presence).  The `index.js` variant never parses its
URL, so it is embedded at the string level.  Environment variables that are
absent are modelled as the empty string: both are JavaScript-falsy, which is
the only property the code reads off them.  The network is an explicit oracle
(a function from requests to responses) and each run returns the list of
requests it issued, so that "no network call is attempted" and "exactly one
retry" are statable.
-/

namespace Trello

/-- Credential context: `TRELLO_API_KEY` / `TRELLO_TOKEN` read at startup.
An absent environment variable is modelled as the empty string (both are
falsy in the `if (!TRELLO_API_KEY || !TRELLO_TOKEN)` checks). -/
structure Creds where
  apiKey : String
  token : String
  deriving DecidableEq, Repr

/-- `ensureCreds` succeeds iff neither credential is falsy (src/mcp.js
lines 27-31, and the startup check of the other two variants). -/
def credsOk (c : Creds) : Bool :=
  !(c.apiKey.isEmpty || c.token.isEmpty)

/-- Ordered query-parameter list of a URL, as held by `URLSearchParams`. -/
abbrev Params := List (String × String)

/-- `url.searchParams.has(k)`. -/
def hasParam : Params → String → Bool
  | [], _ => false
  | p :: ps, k => if p.1 = k then true else hasParam ps k

/-- `url.searchParams.get(k)`: value of the first entry named `k`. -/
def getParam : Params → String → Option String
  | [], _ => none
  | p :: ps, k => if p.1 = k then some p.2 else getParam ps k

/-- Number of entries named `k`. -/
def countName : Params → String → Nat
  | [], _ => 0
  | p :: ps, k => (if p.1 = k then 1 else 0) + countName ps k

/-- Delete every entry named `k` (the dedup step of `URLSearchParams.set`). -/
def removeParam : Params → String → Params
  | [], _ => []
  | p :: ps, k => if p.1 = k then removeParam ps k else p :: removeParam ps k

/-- `url.searchParams.set(k, v)`: replace the first entry named `k` in place
and delete the others; append at the end when `k` is absent. -/
def setParam : Params → String → String → Params
  | [], k, v => [(k, v)]
  | p :: ps, k, v =>
    if p.1 = k then (k, v) :: removeParam ps k else p :: setParam ps k v

/-- A structural URL: path part plus query parameters. -/
structure Url where
  path : String
  params : Params
  deriving DecidableEq, Repr

/-- `appendAuthParams` (src/mcp.js lines 35-43 and the identical helper of the
express variant): set `key` and `token` only when not already present. -/
def appendAuthParams (c : Creds) (u : Url) : Url :=
  let u1 := if hasParam u.params "key" then u
            else { u with params := setParam u.params "key" c.apiKey }
  if hasParam u1.params "token" then u1
  else { u1 with params := setParam u1.params "token" c.token }

/-! ### Association-list lemmas for `setParam` -/

theorem countName_removeParam_self (ps : Params) (k : String) :
    countName (removeParam ps k) k = 0 := by
  induction ps with
  | nil => rfl
  | cons p rest ih =>
    by_cases h : p.1 = k
    · simpa [removeParam, h] using ih
    · simpa [removeParam, countName, h] using ih

theorem countName_removeParam_ne (ps : Params) (k k' : String) (h : k' ≠ k) :
    countName (removeParam ps k) k' = countName ps k' := by
  induction ps with
  | nil => rfl
  | cons p rest ih =>
    have hk : ¬ k = k' := fun he => h he.symm
    by_cases hp : p.1 = k
    · have hq : ¬ p.1 = k' := fun he => h (he ▸ hp ▸ rfl)
      simp [removeParam, countName, hp, hq, hk, ih]
    · simp [removeParam, countName, hp, ih]

theorem countName_setParam_self (ps : Params) (k v : String) :
    countName (setParam ps k v) k = 1 := by
  induction ps with
  | nil => simp [setParam, countName]
  | cons p rest ih =>
    by_cases h : p.1 = k
    · simp [setParam, h, countName, countName_removeParam_self rest k]
    · simpa [setParam, countName, h] using ih

theorem countName_setParam_ne (ps : Params) (k k' v : String) (h : k' ≠ k) :
    countName (setParam ps k v) k' = countName ps k' := by
  have hk : ¬ k = k' := fun he => h he.symm
  induction ps with
  | nil => simp [setParam, countName, hk]
  | cons p rest ih =>
    by_cases hp : p.1 = k
    · have hq : ¬ p.1 = k' := fun he => h (he ▸ hp ▸ rfl)
      simp [setParam, countName, hp, hq, hk,
        countName_removeParam_ne rest k k' h]
    · simp [setParam, countName, hp, ih]

theorem getParam_setParam_self (ps : Params) (k v : String) :
    getParam (setParam ps k v) k = some v := by
  induction ps with
  | nil => simp [setParam, getParam]
  | cons p rest ih =>
    by_cases h : p.1 = k
    · simp [setParam, h, getParam]
    · simpa [setParam, getParam, h] using ih

theorem getParam_removeParam_ne (ps : Params) (k k' : String) (h : k' ≠ k) :
    getParam (removeParam ps k) k' = getParam ps k' := by
  have hk : ¬ k = k' := fun he => h he.symm
  induction ps with
  | nil => rfl
  | cons p rest ih =>
    by_cases hp : p.1 = k
    · have hq : ¬ p.1 = k' := fun he => h (he ▸ hp ▸ rfl)
      simp [removeParam, getParam, hp, hq, hk, ih]
    · by_cases hq : p.1 = k'
      · simp [removeParam, getParam, hp, hq, h]
      · simp [removeParam, getParam, hp, hq, ih]

theorem getParam_setParam_ne (ps : Params) (k k' v : String) (h : k' ≠ k) :
    getParam (setParam ps k v) k' = getParam ps k' := by
  have hk : ¬ k = k' := fun he => h he.symm
  induction ps with
  | nil => simp [setParam, getParam, hk]
  | cons p rest ih =>
    by_cases hp : p.1 = k
    · have hq : ¬ p.1 = k' := fun he => h (he ▸ hp ▸ rfl)
      simp [setParam, getParam, hp, hq, hk,
        getParam_removeParam_ne rest k k' h]
    · by_cases hq : p.1 = k'
      · simp [setParam, getParam, hp, hq, h]
      · simp [setParam, getParam, hp, hq, ih]

theorem hasParam_iff_countName (ps : Params) (k : String) :
    hasParam ps k = true ↔ countName ps k ≠ 0 := by
  induction ps with
  | nil => simp [hasParam, countName]
  | cons p rest ih =>
    by_cases h : p.1 = k
    · simp [hasParam, countName, h]
    · simpa [hasParam, countName, h] using ih

theorem getParam_eq_none_of_not_has (ps : Params) (k : String)
    (h : hasParam ps k = false) : getParam ps k = none := by
  induction ps with
  | nil => rfl
  | cons p rest ih =>
    by_cases hp : p.1 = k
    · simp [hasParam, hp] at h
    · simp [hasParam, hp] at h
      simp [getParam, hp, ih h]

theorem hasParam_of_getParam (ps : Params) (k v : String)
    (h : getParam ps k = some v) : hasParam ps k = true := by
  by_contra hc
  have hf : hasParam ps k = false := by
    cases hh : hasParam ps k
    · rfl
    · exact absurd hh hc
  rw [getParam_eq_none_of_not_has ps k hf] at h
  exact Option.noConfusion h

theorem hasParam_false_iff_countName (ps : Params) (k : String) :
    hasParam ps k = false ↔ countName ps k = 0 := by
  constructor
  · intro hf
    by_contra hc
    have := (hasParam_iff_countName ps k).mpr hc
    rw [hf] at this
    exact Bool.noConfusion this
  · intro hz
    cases hh : hasParam ps k
    · rfl
    · exact absurd hz ((hasParam_iff_countName ps k).mp hh)

/-! ### Query values and the query-mapping loop of `trelloFetch` -/

/-- A JavaScript value appearing in a `query` mapping: string, number,
boolean, `undefined` or `null`. -/
inductive JValue where
  | str (s : String)
  | num (n : Int)
  | boolean (b : Bool)
  | jsUndefined
  | null
  deriving DecidableEq, Repr

/-- The `value === undefined || value === null` test of the query loop. -/
def isNullish : JValue → Bool
  | .jsUndefined => true
  | .null => true
  | _ => false

/-- `String(value)` for the values that reach `searchParams.set`. -/
def jsString : JValue → String
  | .str s => s
  | .num n => toString n
  | .boolean b => cond b "true" "false"
  | .jsUndefined => "undefined"
  | .null => "null"

/-- The query loop of `trelloFetch` (src/mcp.js lines 55-58) and of the
express `trelloRequest` (the second part of src/mcp.js, lines 316-319):
entries with `undefined`/`null` values are skipped, all others are written
with `searchParams.set` after `String` coercion. -/
def applyQuery (ps : Params) : List (String × JValue) → Params
  | [] => ps
  | (k, v) :: rest =>
    applyQuery (if isNullish v then ps else setParam ps k (jsString v)) rest

theorem getParam_applyQuery_not_mem (ps : Params) (q : List (String × JValue))
    (k : String) (h : ∀ v, (k, v) ∈ q → isNullish v = true) :
    getParam (applyQuery ps q) k = getParam ps k := by
  induction q generalizing ps with
  | nil => rfl
  | cons e rest ih =>
    have hrest : ∀ v, (k, v) ∈ rest → isNullish v = true :=
      fun v hv => h v (List.mem_cons_of_mem e hv)
    by_cases hn : isNullish e.2
    · simpa [applyQuery, hn] using ih ps hrest
    · have hne : e.1 ≠ k := by
        intro he
        have := h e.2 (by rw [← he]; exact List.mem_cons_self e rest)
        rw [this] at hn
        exact hn rfl
      have := ih (setParam ps e.1 (jsString e.2)) hrest
      simpa [applyQuery, hn, getParam_setParam_ne ps e.1 k (jsString e.2)
        (fun he => hne he.symm)] using this

theorem countName_applyQuery_not_mem (ps : Params) (q : List (String × JValue))
    (k : String) (h : ∀ v, (k, v) ∈ q → isNullish v = true) :
    countName (applyQuery ps q) k = countName ps k := by
  induction q generalizing ps with
  | nil => rfl
  | cons e rest ih =>
    have hrest : ∀ v, (k, v) ∈ rest → isNullish v = true :=
      fun v hv => h v (List.mem_cons_of_mem e hv)
    by_cases hn : isNullish e.2
    · simpa [applyQuery, hn] using ih ps hrest
    · have hne : e.1 ≠ k := by
        intro he
        have := h e.2 (by rw [← he]; exact List.mem_cons_self e rest)
        rw [this] at hn
        exact hn rfl
      have := ih (setParam ps e.1 (jsString e.2)) hrest
      simpa [applyQuery, hn, countName_setParam_ne ps e.1 k (jsString e.2)
        (fun he => hne he.symm)] using this

theorem applyQuery_mem_nonNull (ps : Params) (q : List (String × JValue))
    (k : String) (v : JValue)
    (hnd : (q.map Prod.fst).Nodup) (hmem : (k, v) ∈ q)
    (hv : isNullish v = false) :
    getParam (applyQuery ps q) k = some (jsString v)
      ∧ countName (applyQuery ps q) k = 1 := by
  induction q generalizing ps with
  | nil => exact absurd hmem (List.not_mem_nil (k, v))
  | cons e rest ih =>
    have hnd' : (rest.map Prod.fst).Nodup := (List.nodup_cons.mp hnd).2
    rcases List.mem_cons.mp hmem with he | hrest
    · have hknotin : k ∉ rest.map Prod.fst := by
        have := (List.nodup_cons.mp hnd).1
        rw [← he] at this
        exact this
      have hnone : ∀ w, (k, w) ∈ rest → isNullish w = true := by
        intro w hw
        exact absurd (List.mem_map_of_mem Prod.fst hw) hknotin
      have hk1 : e.1 = k := by rw [← he]
      have hv2 : e.2 = v := by rw [← he]
      rw [applyQuery, hk1, hv2, hv]
      simp only [Bool.false_eq_true, if_false]
      constructor
      · rw [getParam_applyQuery_not_mem _ rest k hnone,
          getParam_setParam_self]
      · rw [countName_applyQuery_not_mem _ rest k hnone,
          countName_setParam_self]
    · by_cases hn : isNullish e.2
      · rw [applyQuery, hn]
        simp only [if_true]
        exact ih ps hnd' hrest
      · rw [applyQuery]
        simp only [hn, Bool.false_eq_true, if_false]
        exact ih (setParam ps e.1 (jsString e.2)) hnd' hrest

/-- Two bindings of the same key in a JavaScript-object-like mapping (whose
keys are distinct) are the same binding. -/
theorem nodup_key_unique (q : List (String × JValue)) (k : String)
    (v w : JValue) (hnd : (q.map Prod.fst).Nodup)
    (hv : (k, v) ∈ q) (hw : (k, w) ∈ q) : v = w := by
  induction q with
  | nil => exact absurd hv (List.not_mem_nil (k, v))
  | cons e rest ih =>
    have hnd' : (rest.map Prod.fst).Nodup := (List.nodup_cons.mp hnd).2
    have hnotin : e.1 ∉ rest.map Prod.fst := (List.nodup_cons.mp hnd).1
    rcases List.mem_cons.mp hv with hev | hv'
    · rcases List.mem_cons.mp hw with hew | hw'
      · rw [← hev] at hew
        exact (Prod.mk.injEq _ _ _ _ ▸ hew.symm : _ ∧ _).2
      · have : k ∈ rest.map Prod.fst := List.mem_map_of_mem Prod.fst hw'
        rw [← hev] at hnotin
        exact absurd this hnotin
    · rcases List.mem_cons.mp hw with hew | hw'
      · have : k ∈ rest.map Prod.fst := List.mem_map_of_mem Prod.fst hv'
        rw [← hew] at hnotin
        exact absurd this hnotin
      · exact ih hnd' hv' hw'

/-! ### Serialization: `application/x-www-form-urlencoded` and JSON -/

/-- Hexadecimal digit (uppercase), for percent-escapes. -/
def hexDigit (n : Nat) : Char :=
  if n < 10 then Char.ofNat (48 + n) else Char.ofNat (55 + n)

/-- One character of `URLSearchParams` serialization: alphanumerics and
`*-._` are kept, space becomes `+`, everything else is percent-escaped. -/
def formEncodeChar (c : Char) : List Char :=
  if c = ' ' then ['+']
  else if c.isAlphanum || c = '*' || c = '-' || c = '.' || c = '_' then [c]
  else ['%', hexDigit (c.toNat / 16 % 16), hexDigit (c.toNat % 16)]

/-- `URLSearchParams.toString` encoding of one component. -/
def formEncode (s : String) : String :=
  String.mk (s.data.foldr (fun c acc => formEncodeChar c ++ acc) [])

/-- `URLSearchParams.toString`: `k1=v1&k2=v2&...` with both sides encoded. -/
def serializeQuery (ps : Params) : String :=
  String.intercalate "&" (ps.map (fun p => formEncode p.1 ++ "=" ++ formEncode p.2))

/-- A primitive JSON value (all bodies in this repository are flat objects
over these). -/
inductive JPrim where
  | s (v : String)
  | i (v : Int)
  | b (v : Bool)
  | null
  deriving DecidableEq, Repr

/-- A JSON document as used by the adapters: a primitive, or a flat object. -/
inductive Json where
  | prim (p : JPrim)
  | obj (fields : List (String × JPrim))
  deriving DecidableEq, Repr

/-- `JSON.stringify` escaping for string literals. -/
def jsonEscapeChar (c : Char) : List Char :=
  if c = '"' then ['\\', '"']
  else if c = '\\' then ['\\', '\\'] else [c]

/-- `JSON.stringify` of a string. -/
def jsonQuote (s : String) : String :=
  String.mk ('"' :: s.data.foldr (fun c acc => jsonEscapeChar c ++ acc) ['"'])

/-- `JSON.stringify` of a primitive. -/
def stringifyPrim : JPrim → String
  | .s v => jsonQuote v
  | .i v => toString v
  | .b v => cond v "true" "false"
  | .null => "null"

/-- `JSON.stringify` of a document. -/
def stringifyJson : Json → String
  | .prim p => stringifyPrim p
  | .obj fields =>
    "\x7b" ++ String.intercalate ","
      (fields.map (fun f => jsonQuote f.1 ++ ":" ++ stringifyPrim f.2)) ++ "\x7d"

/-- Does a (possibly absent) JSON body carry a field named `k`? -/
def bodyHasKey : Option Json → String → Bool
  | some (.obj fields), k => fields.any (fun f => f.1 == k)
  | _, _ => false

/-- A request body handed to `trelloFetch` / the express `trelloRequest`:
either a `URLSearchParams` instance or a JSON-serializable mapping. -/
inductive Body where
  | form (ps : Params)
  | json (j : Json)
  deriving DecidableEq, Repr

/-! ### Building the outgoing request (`trelloFetch`, src/mcp.js 45-75) -/

/-- The fixed API base. -/
def TRELLO_BASE : String := "https://api.trello.com/1"

/-- User-agent of the MCP stdio variant. -/
def UA_MCP : String := "trello-mcp-server/0.1.0"

/-- User-agent of the express variant (and of src/index.js). -/
def UA_EXPRESS : String := "Trello-MCP-Server/1.0.0"

/-- The `fetchOptions` computation shared by `trelloFetch` (src/mcp.js
lines 60-73) and the express `trelloRequest` (lines 321-336): a fixed
`User-Agent` header, and — when a body is present and the method is not
`GET` — the serialized body with its matching `Content-Type`. -/
def buildFetchOptions (ua method : String) (body? : Option Body) :
    Params × Option String :=
  let base : Params := [("User-Agent", ua)]
  match body? with
  | none => (base, none)
  | some b =>
    if method = "GET" then (base, none)
    else
      match b with
      | .form ps =>
        (base ++ [("Content-Type", "application/x-www-form-urlencoded")],
          some (serializeQuery ps))
      | .json j =>
        (base ++ [("Content-Type", "application/json")],
          some (stringifyJson j))

/-- The request a forwarding call is about to issue. -/
structure FetchRequest where
  url : Url
  method : String
  headers : Params
  body : Option String
  deriving DecidableEq, Repr

/-- URL and option building of `trelloFetch` / the express `trelloRequest`
after option normalization: `appendAuthParams(new URL(base + endpoint))`,
then the query loop, then `fetchOptions`.  Endpoints passed by the call
sites of these two variants are plain paths, so the fresh URL starts with
no query parameters. -/
def buildFetchRequest (c : Creds) (ua endpoint method : String)
    (query : List (String × JValue)) (body? : Option Body) : FetchRequest :=
  let u0 := appendAuthParams c { path := TRELLO_BASE ++ endpoint, params := [] }
  let u := { u0 with params := applyQuery u0.params query }
  let opts := buildFetchOptions ua method body?
  { url := u, method := method, headers := opts.1, body := opts.2 }

theorem appendAuthParams_nil (c : Creds) (p : String) :
    (appendAuthParams c { path := p, params := [] }).params
      = [("key", c.apiKey), ("token", c.token)] := by
  simp [appendAuthParams, hasParam, setParam, removeParam]

theorem buildFetchRequest_params (c : Creds) (ua endpoint method : String)
    (query : List (String × JValue)) (body? : Option Body) :
    (buildFetchRequest c ua endpoint method query body?).url.params
      = applyQuery [("key", c.apiKey), ("token", c.token)] query := by
  simp [buildFetchRequest, appendAuthParams_nil]

/-! ### The network oracle and the forwarding runs -/

/-- An upstream HTTP response: the fields the adapters read off a `fetch`
`Response` object.  `jsonBody` is the result of `res.json()` (`none` when
the body is not valid JSON). -/
structure Response where
  ok : Bool
  status : Nat
  statusText : String
  text : String
  jsonBody : Option Json

/-- Structured errors of the MCP forwarding layer. -/
inductive TrelloError where
  | missingCredentials
  | upstream (status : Nat) (body : String)
  | decodeError
  deriving DecidableEq, Repr

/-- `trelloFetch` (src/mcp.js lines 45-81) against a network oracle `env`.
Returns the outcome together with the list of requests actually issued, so
that "no network call is attempted" is statable.  `ensureCreds` runs before
anything else; only then is the request built and sent. -/
def trelloFetchRun (c : Creds) (env : FetchRequest → Response)
    (endpoint method : String) (query : List (String × JValue))
    (body? : Option Body) : Except TrelloError Json × List FetchRequest :=
  if credsOk c then
    let req := buildFetchRequest c UA_MCP endpoint method query body?
    let r := env req
    if r.ok then
      match r.jsonBody with
      | some j => (.ok j, [req])
      | none => (.error .decodeError, [req])
    else (.error (.upstream r.status r.text), [req])
  else (.error .missingCredentials, [])

/-! ### Substring containment (`String.prototype.includes`) -/

/-- Does `hay` start with `needle`? -/
def startsWithSeq : List Char → List Char → Bool
  | [], _ => true
  | _ :: _, [] => false
  | a :: as, b :: bs => a == b && startsWithSeq as bs

/-- `hay.includes(needle)` on character lists. -/
def containsSeq (needle : List Char) : List Char → Bool
  | [] => startsWithSeq needle []
  | c :: t => startsWithSeq needle (c :: t) || containsSeq needle t

theorem startsWithSeq_self_append (n t : List Char) :
    startsWithSeq n (n ++ t) = true := by
  induction n with
  | nil => rfl
  | cons a as ih => simp [startsWithSeq, ih]

theorem containsSeq_of_startsWith (n h : List Char)
    (hs : startsWithSeq n h = true) : containsSeq n h = true := by
  cases h with
  | nil => simpa [containsSeq] using hs
  | cons c t => simp [containsSeq, hs]

theorem containsSeq_append_left (n s t : List Char)
    (h : containsSeq n t = true) : containsSeq n (s ++ t) = true := by
  induction s with
  | nil => simpa using h
  | cons c cs ih => simp [containsSeq, ih]

theorem containsSeq_mid (n pre post : List Char) :
    containsSeq n (pre ++ (n ++ post)) = true :=
  containsSeq_append_left n pre (n ++ post)
    (containsSeq_of_startsWith n (n ++ post) (startsWithSeq_self_append n post))

theorem strData_append (a b : String) : (a ++ b).data = a.data ++ b.data := rfl

/-! ### Attachment download with credential fallback
(`downloadAttachment`, src/mcp.js lines 83-109) -/

/-- The error message thrown by the inner `attemptFetch` helper. -/
def attachmentErrMsg (r : Response) : String :=
  "Attachment download " ++ (toString r.status ++ (": " ++ r.text))

/-- One plain GET of the attachment URL: succeed on `res.ok`, otherwise
throw the message above. -/
def attemptFetch (env : Url → Response) (u : Url) : Except String Response :=
  let r := env u
  if r.ok then .ok r else .error (attachmentErrMsg r)

/-- The `error.message.includes('401') || error.message.includes('403')`
test deciding whether to retry with credentials. -/
def needsAuthRetry (msg : String) : Bool :=
  containsSeq "401".data msg.data || containsSeq "403".data msg.data

/-- `downloadAttachment` on an already-parsed URL, with the list of URLs
fetched: try once unauthenticated; if that throws and the message mentions
`401`/`403`, retry exactly once on `appendAuthParams(new URL(parsedUrl))`
and return that second outcome as-is; otherwise rethrow. -/
def downloadAttachmentRun (c : Creds) (env : Url → Response) (u : Url) :
    Except String Response × List Url :=
  match attemptFetch env u with
  | .ok r => (.ok r, [u])
  | .error msg =>
    if needsAuthRetry msg then
      let au := appendAuthParams c u
      (attemptFetch env au, [u, au])
    else (.error msg, [u])

theorem needsAuthRetry_of_status_401 (r : Response) (h : r.status = 401) :
    needsAuthRetry (attachmentErrMsg r) = true := by
  have : containsSeq "401".data (attachmentErrMsg r).data = true := by
    rw [attachmentErrMsg, h]
    show containsSeq "401".data
      ("Attachment download ".data ++ ("401" ++ (": " ++ r.text)).data) = true
    rw [strData_append, strData_append]
    exact containsSeq_mid "401".data "Attachment download ".data (": " ++ r.text).data
  simp [needsAuthRetry, this]

theorem needsAuthRetry_of_status_403 (r : Response) (h : r.status = 403) :
    needsAuthRetry (attachmentErrMsg r) = true := by
  have : containsSeq "403".data (attachmentErrMsg r).data = true := by
    rw [attachmentErrMsg, h]
    show containsSeq "403".data
      ("Attachment download ".data ++ ("403" ++ (": " ++ r.text)).data) = true
    rw [strData_append, strData_append]
    exact containsSeq_mid "403".data "Attachment download ".data (": " ++ r.text).data
  simp [needsAuthRetry, this]

/-! ### The express variant (second part of src/mcp.js / src/unnamed/part_000) -/

/-- The wrapped error message of the express `trelloRequest` for a non-2xx
upstream response: the inner `Trello API error: <status> <statusText> -
<text>` throw is caught by the surrounding try/catch and rethrown with the
`Failed to make Trello request: ` prefix (lines 338-349). -/
def expressErrMsg (r : Response) : String :=
  "Failed to make Trello request: Trello API error: "
    ++ (toString r.status ++ (" " ++ (r.statusText ++ (" - " ++ r.text))))

/-- The express `trelloRequest` against a network oracle.  Credentials are
checked at startup in this variant (the process exits when they are
missing), so the function itself performs no per-call check. -/
def expressRequestRun (c : Creds) (env : FetchRequest → Response)
    (endpoint method : String) (query : List (String × JValue))
    (body? : Option Body) : Except String Json :=
  let req := buildFetchRequest c UA_EXPRESS endpoint method query body?
  let r := env req
  if r.ok then
    match r.jsonBody with
    | some j => .ok j
    | none => .error "Failed to make Trello request: Unexpected end of JSON input"
  else .error (expressErrMsg r)

/-- An HTTP response of the express server, as produced by a route handler
or by the error-handling middleware. -/
structure HttpResponse where
  status : Nat
  body : Json
  deriving DecidableEq, Repr

/-- The `GET /cards/:cardId` route (lines 428-436) composed with the error
middleware (lines 501-504): on success the upstream JSON with status 200,
on any error status 500 with body `{ error: err.message }`. -/
def getCardRoute (c : Creds) (env : FetchRequest → Response)
    (cardId : String) : HttpResponse :=
  match expressRequestRun c env ("/cards/" ++ cardId) "GET" [] none with
  | .ok j => { status := 200, body := j }
  | .error m => { status := 500, body := .obj [("error", .s m)] }

theorem expressErrMsg_mentions_status (r : Response) :
    containsSeq (toString r.status).data (expressErrMsg r).data = true := by
  rw [expressErrMsg]
  show containsSeq (toString r.status).data
    ("Failed to make Trello request: Trello API error: ".data
      ++ (toString r.status ++ (" " ++ (r.statusText ++ (" - " ++ r.text)))).data) = true
  rw [strData_append]
  exact containsSeq_mid (toString r.status).data _ _

/-! ### The src/index.js variant: string-level URL building -/

/-- The auth-injection step of the `trelloRequest` in src/index.js
(lines 30-32): unconditional string concatenation of
`?key=<apiKey>&token=<token>` onto the endpoint URL. -/
def indexInjectAuth (c : Creds) (u : String) : String :=
  u ++ "?key=" ++ c.apiKey ++ "&token=" ++ c.token

/-- Everything after the first `?`, if any (how `new URL` and servers locate
the query string). -/
def queryPartOpt : List Char → Option (List Char)
  | [] => none
  | c :: t => if c = '?' then some t else queryPartOpt t

/-- Split a query string at `&`. -/
def splitAmp : List Char → List (List Char)
  | [] => [[]]
  | c :: t =>
    if c = '&' then [] :: splitAmp t
    else
      match splitAmp t with
      | [] => [[c]]
      | g :: gs => (c :: g) :: gs

/-- Parameter names of a URL string: for each `&`-separated piece of the
query string, the part before the first `=`. -/
def urlParamNames (s : String) : List String :=
  match queryPartOpt s.data with
  | none => []
  | some q => (splitAmp q).map (fun l => String.mk (l.takeWhile (fun c => !(c == '='))))

/-- A request of the src/index.js `trelloRequest`: a URL kept as a string,
a method, headers, and an optional JSON body. -/
structure IndexRequest where
  url : String
  method : String
  headers : Params
  body : Option Json
  deriving DecidableEq, Repr

/-- The option building of the src/index.js `trelloRequest` (lines 33-43):
`Content-Type: application/json` and the fixed user-agent are always set;
the body is JSON-stringified when present and the method is not `GET`. -/
def indexFetchOptions (method : String) (body? : Option Json) :
    Params × Option String :=
  let headers : Params :=
    [("Content-Type", "application/json"), ("User-Agent", UA_EXPRESS)]
  match body? with
  | none => (headers, none)
  | some b => if method = "GET" then (headers, none)
              else (headers, some (stringifyJson b))

/-- The full request issued by the src/index.js `trelloRequest`. -/
def indexTrelloRequest (c : Creds) (endpoint method : String)
    (body? : Option Json) : IndexRequest :=
  let opts := indexFetchOptions method body?
  { url := indexInjectAuth c (TRELLO_BASE ++ endpoint), method := method,
    headers := opts.1, body := body?.bind (fun b =>
      if method = "GET" then none else some b) }

/-- JavaScript truthiness of an optional string (`undefined` and `""` are
falsy). -/
def strTruthy : Option String → Bool
  | none => false
  | some s => !s.isEmpty

/-- The `create_card` tool of src/index.js (lines 179-191): `cardData` is
`{ idList, name, desc: desc || "" }`, with `pos` added only when truthy,
and the whole object is sent as the JSON body of a POST to `/cards`. -/
def indexCreateCard (c : Creds) (listId name : String)
    (desc pos : Option String) : IndexRequest :=
  let descVal := match desc with
    | some d => if d.isEmpty then "" else d
    | none => ""
  let fields := [("idList", JPrim.s listId), ("name", JPrim.s name),
    ("desc", JPrim.s descVal)]
  let fields := if strTruthy pos then fields ++ [("pos", JPrim.s (pos.getD ""))]
                else fields
  indexTrelloRequest c "/cards" "POST" (some (.obj fields))

/-- The `get_board_activity` tool of src/index.js (lines 339-347): the limit
defaults to 10 and is capped with `Math.min(limit, 50)`; no lower bound. -/
def getBoardActivityLimit (limit? : Option Int) : Int :=
  min (limit?.getD 10) 50

/-- The endpoint string `get_board_activity` passes to `trelloRequest`. -/
def getBoardActivityEndpoint (boardId : String) (limit? : Option Int) : String :=
  "/boards/" ++ boardId ++ "/actions?limit=" ++ toString (getBoardActivityLimit limit?)

/-! ### Base64 (`Buffer.toString('base64')`) and the attachment payload
(`getAttachmentContent`, src/mcp.js lines 223-251) -/

/-- The base64 alphabet. -/
def b64Alphabet : List Char :=
  "ABCDEFGHIJKLMNOPQRSTUVWXYZabcdefghijklmnopqrstuvwxyz0123456789+/".data

/-- Character for a 6-bit group. -/
def b64Char (n : Nat) : Char := b64Alphabet.getD n 'A'

/-- Index of a character in the alphabet, or `none`. -/
def b64Index (ch : Char) : Option Nat :=
  b64Alphabet.findIdx? (fun a => a == ch)

/-- Standard base64 encoding of a byte list, with `=` padding. -/
def encodeB64 : List Nat → List Char
  | [] => []
  | [a] => [b64Char (a / 4), b64Char (a % 4 * 16), '=', '=']
  | [a, b] => [b64Char (a / 4), b64Char (a % 4 * 16 + b / 16),
      b64Char (b % 16 * 4), '=']
  | a :: b :: c :: rest =>
    b64Char (a / 4) :: b64Char (a % 4 * 16 + b / 16)
      :: b64Char (b % 16 * 4 + c / 64) :: b64Char (c % 64) :: encodeB64 rest

/-- Base64 decoding: quads of characters, with terminal `=` padding. -/
def decodeB64 : List Char → Option (List Nat)
  | [] => some []
  | c1 :: c2 :: c3 :: c4 :: rest =>
    (match b64Index c1, b64Index c2 with
     | some i1, some i2 =>
       if c3 = '=' then
         if c4 = '=' ∧ rest = [] then some [i1 * 4 + i2 / 16] else none
       else
         match b64Index c3 with
         | some i3 =>
           if c4 = '=' then
             if rest = [] then some [i1 * 4 + i2 / 16, i2 % 16 * 16 + i3 / 4]
             else none
           else
             match b64Index c4 with
             | some i4 =>
               (decodeB64 rest).map (fun tl =>
                 (i1 * 4 + i2 / 16) :: (i2 % 16 * 16 + i3 / 4)
                   :: (i3 % 4 * 64 + i4) :: tl)
             | none => none
         | none => none
     | _, _ => none)
  | _ => none

theorem b64Index_b64Char (n : Nat) (h : n < 64) :
    b64Index (b64Char n) = some n := by
  interval_cases n <;> rfl

theorem b64Char_ne_pad (n : Nat) (h : n < 64) : b64Char n ≠ '=' := by
  interval_cases n <;> decide

theorem decodeB64_encodeB64 :
    ∀ l : List Nat, (∀ x ∈ l, x < 256) → decodeB64 (encodeB64 l) = some l
  | [], _ => rfl
  | [a], h => by
    have ha : a < 256 := h a (by simp)
    have h1 : a / 4 < 64 := by omega
    have h2 : a % 4 * 16 < 64 := by omega
    simp [encodeB64, decodeB64, b64Index_b64Char _ h1, b64Index_b64Char _ h2]
    omega
  | [a, b], h => by
    have ha : a < 256 := h a (by simp)
    have hb : b < 256 := h b (by simp)
    have h1 : a / 4 < 64 := by omega
    have h2 : a % 4 * 16 + b / 16 < 64 := by omega
    have h3 : b % 16 * 4 < 64 := by omega
    simp [encodeB64, decodeB64, b64Index_b64Char _ h1, b64Index_b64Char _ h2,
      b64Index_b64Char _ h3, b64Char_ne_pad _ h3]
    omega
  | a :: b :: c :: d :: rest, h => by
    have ha : a < 256 := h a (by simp)
    have hb : b < 256 := h b (by simp)
    have hc : c < 256 := h c (by simp)
    have h1 : a / 4 < 64 := by omega
    have h2 : a % 4 * 16 + b / 16 < 64 := by omega
    have h3 : b % 16 * 4 + c / 64 < 64 := by omega
    have h4 : c % 64 < 64 := by omega
    have ih := decodeB64_encodeB64 (d :: rest)
      (fun x hx => h x (by simp at hx ⊢; tauto))
    simp [encodeB64, decodeB64, b64Index_b64Char _ h1, b64Index_b64Char _ h2,
      b64Index_b64Char _ h3, b64Index_b64Char _ h4,
      b64Char_ne_pad _ h3, b64Char_ne_pad _ h4, ih]
    omega
  | [a, b, c], h => by
    have ha : a < 256 := h a (by simp)
    have hb : b < 256 := h b (by simp)
    have hc : c < 256 := h c (by simp)
    have h1 : a / 4 < 64 := by omega
    have h2 : a % 4 * 16 + b / 16 < 64 := by omega
    have h3 : b % 16 * 4 + c / 64 < 64 := by omega
    have h4 : c % 64 < 64 := by omega
    rw [show encodeB64 [a, b, c] = b64Char (a / 4)
        :: b64Char (a % 4 * 16 + b / 16) :: b64Char (b % 16 * 4 + c / 64)
        :: b64Char (c % 64) :: encodeB64 [] from rfl]
    simp [encodeB64, decodeB64, b64Index_b64Char _ h1, b64Index_b64Char _ h2,
      b64Index_b64Char _ h3, b64Index_b64Char _ h4,
      b64Char_ne_pad _ h3, b64Char_ne_pad _ h4]
    omega

/-- A falsy-aware `a || b` on optional strings, as in
`attachment.mimeType || header || 'application/octet-stream'`. -/
def jsOrStr (o : Option String) (d : String) : String :=
  match o with
  | some s => if s.isEmpty then d else s
  | none => d

/-- Normalize a JavaScript string-or-undefined to "some non-empty or none". -/
def toTruthy (o : Option String) : Option String :=
  match o with
  | some s => if s.isEmpty then none else some s
  | none => none

/-- The attachment metadata fields read by `getAttachmentContent`. -/
structure Attachment where
  mimeType : Option String
  fileName : Option String
  name : Option String
  url : String
  deriving DecidableEq, Repr

/-- The payload object assembled by `getAttachmentContent` (src/mcp.js
lines 232-248) from the attachment metadata, the downloaded bytes, and the
response content-type header. -/
structure AttachmentPayload where
  mimeType : String
  bytes : Nat
  filename : Option String
  url : String
  base64 : String
  dataUri : Option String
  attachment : Option Attachment
  deriving DecidableEq, Repr

/-- Build the attachment payload: `mimeType` falls back from metadata to the
`content-type` header to `application/octet-stream`; `base64` is the base64
text of the downloaded bytes; `dataUri` is added only when requested, and
equals `data:<mimeType>;base64,<base64>`. -/
def buildAttachmentPayload (att : Attachment) (bin : List Nat)
    (contentTypeHeader : Option String) (includeDataUri includeMeta : Bool) :
    AttachmentPayload :=
  let mime := jsOrStr att.mimeType (jsOrStr contentTypeHeader "application/octet-stream")
  let b64 := String.mk (encodeB64 bin)
  { mimeType := mime
    bytes := bin.length
    filename := match toTruthy att.fileName with
      | some s => some s
      | none => toTruthy att.name
    url := att.url
    base64 := b64
    dataUri := if includeDataUri then some ("data:" ++ mime ++ ";base64," ++ b64)
               else none
    attachment := if includeMeta then some att else none }

/-! ### Further association-list facts used for the auth-injection claims -/

theorem hasParam_setParam_ne (ps : Params) (k k' v : String) (h : k' ≠ k) :
    hasParam (setParam ps k v) k' = hasParam ps k' := by
  cases hh : hasParam ps k'
  · have hz : countName ps k' = 0 := (hasParam_false_iff_countName ps k').mp hh
    exact (hasParam_false_iff_countName _ _).mpr
      ((countName_setParam_ne ps k k' v h).trans hz)
  · have hz : countName ps k' ≠ 0 := (hasParam_iff_countName ps k').mp hh
    exact (hasParam_iff_countName _ _).mpr
      (fun he => hz (((countName_setParam_ne ps k k' v h)).symm.trans he))

theorem getParam_some_of_hasParam (ps : Params) (k : String)
    (h : hasParam ps k = true) : ∃ v, getParam ps k = some v := by
  induction ps with
  | nil => exact absurd h (by simp [hasParam])
  | cons p rest ih =>
    by_cases hp : p.1 = k
    · exact ⟨p.2, by simp [getParam, hp]⟩
    · have h' : hasParam rest k = true := by simpa [hasParam, hp] using h
      obtain ⟨v, hv⟩ := ih h'
      exact ⟨v, by simp [getParam, hp, hv]⟩

theorem countName_pos_of_hasParam (ps : Params) (k : String)
    (h : hasParam ps k = true) : 1 ≤ countName ps k := by
  have := (hasParam_iff_countName ps k).mp h
  omega

/-- `appendAuthParams` leaves a URL unchanged when both credentials are
already present. -/
theorem appendAuthParams_of_has (c : Creds) (u : Url)
    (hk : hasParam u.params "key" = true)
    (ht : hasParam u.params "token" = true) :
    appendAuthParams c u = u := by
  simp [appendAuthParams, hk, ht]

/-! ### Claim C1 -/

/-- C1 (amended, proved part): for the `appendAuthParams`-based variants
(the MCP stdio server and the express server), auth injection is idempotent
and conservative: applying it twice equals applying it once; the resulting
`key`/`token` value is the caller-supplied one when present and the
configured credential otherwise (never overwritten); and injection never
duplicates — each of `key` and `token` ends up with `max(previous count, 1)`
occurrences. -/
theorem appendAuthParams_idempotent (c : Creds) (u : Url) :
    appendAuthParams c (appendAuthParams c u) = appendAuthParams c u
    ∧ getParam (appendAuthParams c u).params "key"
        = some ((getParam u.params "key").getD c.apiKey)
    ∧ getParam (appendAuthParams c u).params "token"
        = some ((getParam u.params "token").getD c.token)
    ∧ countName (appendAuthParams c u).params "key"
        = max (countName u.params "key") 1
    ∧ countName (appendAuthParams c u).params "token"
        = max (countName u.params "token") 1 := by
  have hkt : ("key" : String) ≠ "token" := by decide
  have htk : ("token" : String) ≠ "key" := by decide
  have main : getParam (appendAuthParams c u).params "key"
        = some ((getParam u.params "key").getD c.apiKey)
      ∧ getParam (appendAuthParams c u).params "token"
        = some ((getParam u.params "token").getD c.token)
      ∧ countName (appendAuthParams c u).params "key"
        = max (countName u.params "key") 1
      ∧ countName (appendAuthParams c u).params "token"
        = max (countName u.params "token") 1 := by
    by_cases hk : hasParam u.params "key" = true
    · obtain ⟨vk, hvk⟩ := getParam_some_of_hasParam u.params "key" hk
      have hck := countName_pos_of_hasParam u.params "key" hk
      by_cases ht : hasParam u.params "token" = true
      · obtain ⟨vt, hvt⟩ := getParam_some_of_hasParam u.params "token" ht
        have hct := countName_pos_of_hasParam u.params "token" ht
        rw [appendAuthParams_of_has c u hk ht, hvk, hvt]
        refine ⟨rfl, rfl, by omega, by omega⟩
      · have ht' : hasParam u.params "token" = false := by
          cases hh : hasParam u.params "token"
          · rfl
          · exact absurd hh ht
        have hgt : getParam u.params "token" = none :=
          getParam_eq_none_of_not_has u.params "token" ht'
        have hct : countName u.params "token" = 0 :=
          (hasParam_false_iff_countName _ _).mp ht'
        have heq : appendAuthParams c u
            = { u with params := setParam u.params "token" c.token } := by
          simp [appendAuthParams, hk, ht']
        refine ⟨?_, ?_, ?_, ?_⟩
        · simp [heq, getParam_setParam_ne u.params "token" "key" c.token hkt, hvk]
        · simp [heq, getParam_setParam_self, hgt]
        · simp [heq, countName_setParam_ne u.params "token" "key" c.token hkt]
          omega
        · simp [heq, countName_setParam_self, hct]
    · have hk' : hasParam u.params "key" = false := by
        cases hh : hasParam u.params "key"
        · rfl
        · exact absurd hh hk
      have hgk : getParam u.params "key" = none :=
        getParam_eq_none_of_not_has u.params "key" hk'
      have hck : countName u.params "key" = 0 :=
        (hasParam_false_iff_countName _ _).mp hk'
      by_cases ht : hasParam u.params "token" = true
      · obtain ⟨vt, hvt⟩ := getParam_some_of_hasParam u.params "token" ht
        have hct := countName_pos_of_hasParam u.params "token" ht
        have ht2 : hasParam (setParam u.params "key" c.apiKey) "token" = true := by
          rw [hasParam_setParam_ne u.params "key" "token" c.apiKey htk]
          exact ht
        have heq : appendAuthParams c u
            = { u with params := setParam u.params "key" c.apiKey } := by
          simp [appendAuthParams, hk', ht2]
        refine ⟨?_, ?_, ?_, ?_⟩
        · simp [heq, getParam_setParam_self, hgk]
        · simp [heq, getParam_setParam_ne u.params "key" "token" c.apiKey htk, hvt]
        · simp [heq, countName_setParam_self, hck]
        · simp [heq, countName_setParam_ne u.params "key" "token" c.apiKey htk]
          omega
      · have ht' : hasParam u.params "token" = false := by
          cases hh : hasParam u.params "token"
          · rfl
          · exact absurd hh ht
        have hgt : getParam u.params "token" = none :=
          getParam_eq_none_of_not_has u.params "token" ht'
        have hct : countName u.params "token" = 0 :=
          (hasParam_false_iff_countName _ _).mp ht'
        have ht2 : hasParam (setParam u.params "key" c.apiKey) "token" = false := by
          rw [hasParam_setParam_ne u.params "key" "token" c.apiKey htk]
          exact ht'
        have heq : appendAuthParams c u = { u with
            params := setParam (setParam u.params "key" c.apiKey) "token" c.token } := by
          simp [appendAuthParams, hk', ht2]
        refine ⟨?_, ?_, ?_, ?_⟩
        · simp [heq, getParam_setParam_ne _ "token" "key" c.token hkt,
            getParam_setParam_self, hgk]
        · simp [heq, getParam_setParam_self, hgt]
        · simp [heq, countName_setParam_ne _ "token" "key" c.token hkt,
            countName_setParam_self, hck]
        · simp [heq, countName_setParam_self, hct]
  refine ⟨?_, main⟩
  have hk2 : hasParam (appendAuthParams c u).params "key" = true :=
    hasParam_of_getParam _ _ _ main.1
  have ht2 : hasParam (appendAuthParams c u).params "token" = true :=
    hasParam_of_getParam _ _ _ main.2.1
  exact appendAuthParams_of_has c (appendAuthParams c u) hk2 ht2

/-- C1 (counterexample): the auth-injection step of the src/index.js
variant is plain string concatenation of `?key=...&token=...`.  Applying it
twice to the `/cards` endpoint URL yields a URL whose query carries the
`token` parameter twice, and applying it once to a URL that already carries
a caller-supplied `token` also duplicates it — so the claim's "holds for
every variant of the forwarding layer" is false. -/
theorem index_auth_injection_counterexample :
    (urlParamNames (indexInjectAuth ⟨"K", "T"⟩
        (indexInjectAuth ⟨"K", "T"⟩ (TRELLO_BASE ++ "/cards")))).count "token" = 2
    ∧ (urlParamNames (indexInjectAuth ⟨"K", "T"⟩
        (TRELLO_BASE ++ "/cards?token=mine"))).count "token" = 2 := by
  constructor <;> rfl

/-! ### Claim C2 -/

/-- C2 (amended): the retry decision of `downloadAttachment` is a substring
test on the thrown message `Attachment download <status>: <body>`, not a
status comparison.  A failing first attempt is propagated with no retry
whenever that message does not contain `401` or `403` (in particular any
404 whose body avoids those digit sequences); a first attempt failing with
status 401 or 403 always triggers exactly one retry against
`appendAuthParams` of the URL, whose outcome — success or failure — is
returned as-is with no third attempt. -/
theorem attachment_fallback (c : Creds) (env : Url → Response) (u : Url) :
    ((env u).ok = false → (env u).status = 404 →
      needsAuthRetry (attachmentErrMsg (env u)) = false →
      downloadAttachmentRun c env u = (.error (attachmentErrMsg (env u)), [u]))
    ∧ ((env u).ok = false →
      ((env u).status = 401 ∨ (env u).status = 403) →
      downloadAttachmentRun c env u
        = (attemptFetch env (appendAuthParams c u), [u, appendAuthParams c u])) := by
  constructor
  · intro hok _ hmsg
    rw [downloadAttachmentRun]
    rw [show attemptFetch env u = .error (attachmentErrMsg (env u)) by
      simp [attemptFetch, hok]]
    simp [hmsg]
  · intro hok hst
    have hretry : needsAuthRetry (attachmentErrMsg (env u)) = true := by
      rcases hst with h1 | h3
      · exact needsAuthRetry_of_status_401 (env u) h1
      · exact needsAuthRetry_of_status_403 (env u) h3
    rw [downloadAttachmentRun]
    rw [show attemptFetch env u = .error (attachmentErrMsg (env u)) by
      simp [attemptFetch, hok]]
    simp [hretry]

/-- Concrete credentials for exercising the attachment fallback. -/
def c2Creds : Creds := { apiKey := "K", token := "T" }

/-- A pre-signed attachment URL with no query parameters. -/
def c2Url : Url := { path := "https://files.example.com/a.png", params := [] }

/-- A server that answers 404 with a body that does not mention 401/403. -/
def c2EnvPlain404 : Url → Response :=
  fun _ => { ok := false, status := 404, statusText := "Not Found",
             text := "no such file", jsonBody := none }

/-- A server that always answers 401. -/
def c2Env401 : Url → Response :=
  fun _ => { ok := false, status := 401, statusText := "Unauthorized",
             text := "auth required", jsonBody := none }

/-- A server that answers 404 with a body text that happens to contain the
digit sequence `401`. -/
def c2EnvBodied404 : Url → Response :=
  fun _ => { ok := false, status := 404, statusText := "Not Found",
             text := "see section 401 of the docs", jsonBody := none }

/-- C2 (witness). -/
theorem attachment_fallback_witness :
    downloadAttachmentRun c2Creds c2EnvPlain404 c2Url
      = (.error (attachmentErrMsg (c2EnvPlain404 c2Url)), [c2Url])
    ∧ downloadAttachmentRun c2Creds c2Env401 c2Url
      = (attemptFetch c2Env401 (appendAuthParams c2Creds c2Url),
         [c2Url, appendAuthParams c2Creds c2Url]) :=
  ⟨(attachment_fallback c2Creds c2EnvPlain404 c2Url).1 rfl rfl (by decide),
   (attachment_fallback c2Creds c2Env401 c2Url).2 rfl (Or.inl rfl)⟩

/-- C2 (counterexample): a URL whose first unauthenticated GET fails with
status 404 but whose error body contains the digit sequence `401` does get
a credential-augmented retry — two fetches are issued — contradicting the
claim that every 404 is propagated without a retry. -/
theorem attachment_404_retry_counterexample :
    (c2EnvBodied404 c2Url).ok = false
    ∧ (c2EnvBodied404 c2Url).status = 404
    ∧ (downloadAttachmentRun c2Creds c2EnvBodied404 c2Url).2
        = [c2Url, appendAuthParams c2Creds c2Url] := by
  refine ⟨rfl, rfl, ?_⟩
  rfl

/-! ### Claim C3 -/

/-- C3: when the API key or the token is absent or empty, `trelloFetch`
fails with the missing-credentials error before any network request is
issued (the list of issued requests is empty).  In the two HTTP-server
variants the same situation is unreachable per call: the process exits at
startup when a credential is missing. -/
theorem missing_credentials_no_fetch (c : Creds) (env : FetchRequest → Response)
    (endpoint method : String) (query : List (String × JValue))
    (body? : Option Body) (h : credsOk c = false) :
    trelloFetchRun c env endpoint method query body?
      = (.error .missingCredentials, []) := by
  simp [trelloFetchRun, h]

/-- C3 (witness): an empty API key with a non-empty token. -/
theorem missing_credentials_no_fetch_witness :
    credsOk { apiKey := "", token := "tok" } = false
    ∧ trelloFetchRun { apiKey := "", token := "tok" }
        (fun _ => { ok := true, status := 200, statusText := "OK",
                    text := "[]", jsonBody := some (.obj []) })
        "/members/me/boards" "GET" [] none
      = (.error .missingCredentials, []) :=
  ⟨rfl,
   missing_credentials_no_fetch { apiKey := "", token := "tok" }
     (fun _ => { ok := true, status := 200, statusText := "OK",
                 text := "[]", jsonBody := some (.obj []) })
     "/members/me/boards" "GET" [] none rfl⟩

/-! ### Claim C4 -/

/-- C4: for every query mapping handed to the forwarding function (its keys
are distinct, as `Object.entries` of a JavaScript object yields them):
entries with an `undefined`/`null` value never appear as query parameters
of the built URL (for names other than the injected `key`/`token`), and
every other entry appears exactly once with its `String(...)` coercion as
value. -/
theorem query_mapping_params (c : Creds) (ua endpoint method : String)
    (query : List (String × JValue)) (body? : Option Body)
    (hnd : (query.map Prod.fst).Nodup) :
    (∀ k v, (k, v) ∈ query → isNullish v = false →
      getParam (buildFetchRequest c ua endpoint method query body?).url.params k
        = some (jsString v)
      ∧ countName (buildFetchRequest c ua endpoint method query body?).url.params k
        = 1)
    ∧ (∀ k v, (k, v) ∈ query → isNullish v = true → k ≠ "key" → k ≠ "token" →
      countName (buildFetchRequest c ua endpoint method query body?).url.params k
        = 0) := by
  constructor
  · intro k v hm hv
    rw [buildFetchRequest_params]
    exact applyQuery_mem_nonNull _ query k v hnd hm hv
  · intro k v hm hv hk ht
    rw [buildFetchRequest_params]
    have hall : ∀ w, (k, w) ∈ query → isNullish w = true := by
      intro w hw
      rw [← nodup_key_unique query k v w hnd hm hw]
      exact hv
    rw [countName_applyQuery_not_mem _ query k hall]
    have hk' : ¬ ("key" : String) = k := fun he => hk he.symm
    have ht' : ¬ ("token" : String) = k := fun he => ht he.symm
    simp [countName, hk', ht']

/-- C4 (witness): a `fields` entry is forwarded once, an `undefined`
`filter` entry is dropped. -/
theorem query_mapping_params_witness :
    getParam (buildFetchRequest { apiKey := "K", token := "T" } UA_MCP
        "/boards/b1/lists" "GET"
        [("fields", .str "name,closed"), ("filter", JValue.jsUndefined)]
        none).url.params "fields" = some "name,closed"
    ∧ countName (buildFetchRequest { apiKey := "K", token := "T" } UA_MCP
        "/boards/b1/lists" "GET"
        [("fields", .str "name,closed"), ("filter", JValue.jsUndefined)]
        none).url.params "fields" = 1
    ∧ countName (buildFetchRequest { apiKey := "K", token := "T" } UA_MCP
        "/boards/b1/lists" "GET"
        [("fields", .str "name,closed"), ("filter", JValue.jsUndefined)]
        none).url.params "filter" = 0 := by
  have h := query_mapping_params { apiKey := "K", token := "T" } UA_MCP
    "/boards/b1/lists" "GET"
    [("fields", .str "name,closed"), ("filter", JValue.jsUndefined)] none (by decide)
  have h1 := h.1 "fields" (.str "name,closed") (by decide) rfl
  have h2 := h.2 "filter" JValue.jsUndefined (by decide) rfl (by decide) (by decide)
  exact ⟨h1.1, h1.2, h2⟩

/-! ### Claim C9 -/

/-- C9: credentials are injected before the caller's query mapping is
applied and query entries are written with set-semantics, so a caller
entry named `key` (resp. `token`) with a non-nullish value replaces the
injected credential: the final URL carries the caller's value for that
parameter, exactly once. -/
theorem caller_credentials_override (c : Creds) (ua endpoint method : String)
    (query : List (String × JValue)) (body? : Option Body) (v w : JValue)
    (hnd : (query.map Prod.fst).Nodup) :
    (("key", v) ∈ query → isNullish v = false →
      getParam (buildFetchRequest c ua endpoint method query body?).url.params "key"
        = some (jsString v)
      ∧ countName (buildFetchRequest c ua endpoint method query body?).url.params "key"
        = 1)
    ∧ (("token", w) ∈ query → isNullish w = false →
      getParam (buildFetchRequest c ua endpoint method query body?).url.params "token"
        = some (jsString w)
      ∧ countName (buildFetchRequest c ua endpoint method query body?).url.params "token"
        = 1) := by
  constructor
  · intro hm hv
    rw [buildFetchRequest_params]
    exact applyQuery_mem_nonNull _ query "key" v hnd hm hv
  · intro hm hw
    rw [buildFetchRequest_params]
    exact applyQuery_mem_nonNull _ query "token" w hnd hm hw

/-- C9 (witness): caller-supplied `key` and `token` survive injection. -/
theorem caller_credentials_override_witness :
    getParam (buildFetchRequest { apiKey := "K", token := "T" } UA_MCP
        "/cards/c9" "GET"
        [("key", .str "callerKey"), ("token", .str "callerToken")]
        none).url.params "key" = some "callerKey"
    ∧ countName (buildFetchRequest { apiKey := "K", token := "T" } UA_MCP
        "/cards/c9" "GET"
        [("key", .str "callerKey"), ("token", .str "callerToken")]
        none).url.params "key" = 1
    ∧ getParam (buildFetchRequest { apiKey := "K", token := "T" } UA_MCP
        "/cards/c9" "GET"
        [("key", .str "callerKey"), ("token", .str "callerToken")]
        none).url.params "token" = some "callerToken"
    ∧ countName (buildFetchRequest { apiKey := "K", token := "T" } UA_MCP
        "/cards/c9" "GET"
        [("key", .str "callerKey"), ("token", .str "callerToken")]
        none).url.params "token" = 1 := by
  have h := caller_credentials_override { apiKey := "K", token := "T" } UA_MCP
    "/cards/c9" "GET" [("key", .str "callerKey"), ("token", .str "callerToken")]
    none (.str "callerKey") (.str "callerToken") (by decide)
  have h1 := h.1 (by decide) rfl
  have h2 := h.2 (by decide) rfl
  exact ⟨h1.1, h1.2, h2.1, h2.2⟩

/-! ### Claim C5 -/

/-- Embed an optional string argument as the JavaScript value passed on:
present arguments are strings, omitted ones are `undefined`. -/
def optJStr : Option String → JValue
  | some s => .str s
  | none => .jsUndefined

/-- The `createCard` MCP tool (src/mcp.js lines 202-208): a POST to
`/cards` with `{ idList, name, desc, pos }` as the query mapping. -/
def createCardRequest (c : Creds) (idList name : String)
    (desc pos : Option String) : FetchRequest :=
  buildFetchRequest c UA_MCP "/cards" "POST"
    [("idList", .str idList), ("name", .str name),
     ("desc", optJStr desc), ("pos", optJStr pos)] none

/-- The express `POST /cards` route (lines 461-470): after schema
validation it forwards `{ idList: listId, name, desc: description ??
undefined, pos: pos === undefined ? undefined : String(pos) }`. -/
def expressCreateCard (c : Creds) (listId name : String)
    (description pos : Option String) : FetchRequest :=
  buildFetchRequest c UA_EXPRESS "/cards" "POST"
    [("idList", .str listId), ("name", .str name),
     ("desc", optJStr description), ("pos", optJStr pos)] none

/-- C5 (amended, proved part): in the MCP `createCard` tool and the express
`POST /cards` route, the call with list `L1`, name `Fix bug` and no
`desc`/`pos` issues a POST to `/cards` whose parameters are exactly `key`,
`token`, `idList=L1` and `name=Fix bug` — `name` serializing to `Fix+bug` —
with no `desc` and no `pos` parameter. -/
theorem createCard_minimal_params (c : Creds) :
    (createCardRequest c "L1" "Fix bug" none none).url.params
      = [("key", c.apiKey), ("token", c.token), ("idList", "L1"), ("name", "Fix bug")]
    ∧ (createCardRequest c "L1" "Fix bug" none none).method = "POST"
    ∧ (createCardRequest c "L1" "Fix bug" none none).url.path
      = "https://api.trello.com/1/cards"
    ∧ hasParam (createCardRequest c "L1" "Fix bug" none none).url.params "desc" = false
    ∧ hasParam (createCardRequest c "L1" "Fix bug" none none).url.params "pos" = false
    ∧ serializeQuery (createCardRequest { apiKey := "KEY", token := "TOKEN" }
        "L1" "Fix bug" none none).url.params
      = "key=KEY&token=TOKEN&idList=L1&name=Fix+bug"
    ∧ (expressCreateCard c "L1" "Fix bug" none none).url.params
      = [("key", c.apiKey), ("token", c.token), ("idList", "L1"), ("name", "Fix bug")] := by
  refine ⟨rfl, rfl, rfl, ?_, ?_, rfl, rfl⟩
  · rfl
  · rfl

/-- C5 (counterexample): the `create_card` tool of src/index.js is also a
`createCard`-equivalent call, but its POST to `/cards` carries only `key`
and `token` as URL parameters — `idList` and `name` are not query
parameters — and its JSON body always contains a `desc` field (defaulted to
the empty string), contradicting "parameters are exactly idList, name, key,
token, with no desc present". -/
theorem create_card_index_counterexample :
    urlParamNames (indexCreateCard { apiKey := "K", token := "T" }
        "L1" "Fix bug" none none).url = ["key", "token"]
    ∧ bodyHasKey (indexCreateCard { apiKey := "K", token := "T" }
        "L1" "Fix bug" none none).body "desc" = true := by
  constructor <;> rfl

/-! ### Claim C6 -/

/-- The request the `GET /cards/:cardId` route hands to `trelloRequest`. -/
def expressCardRequest (c : Creds) (cardId : String) : FetchRequest :=
  buildFetchRequest c UA_EXPRESS ("/cards/" ++ cardId) "GET" [] none

/-- C6: every non-2xx upstream response makes the express forwarding
function fail with an error whose message contains the upstream status
code, and the route plus error middleware surface it as an HTTP 500
response whose JSON body carries that message — the upstream status is
not proxied as the response status. -/
theorem upstream_error_surfaced_as_500 (c : Creds)
    (env : FetchRequest → Response) (cardId : String)
    (h : (env (expressCardRequest c cardId)).ok = false) :
    containsSeq (toString (env (expressCardRequest c cardId)).status).data
      (expressErrMsg (env (expressCardRequest c cardId))).data = true
    ∧ getCardRoute c env cardId
      = { status := 500,
          body := .obj [("error",
            .s (expressErrMsg (env (expressCardRequest c cardId))))] } := by
  refine ⟨expressErrMsg_mentions_status _, ?_⟩
  rw [getCardRoute]
  rw [show expressRequestRun c env ("/cards/" ++ cardId) "GET" [] none
      = .error (expressErrMsg (env (expressCardRequest c cardId))) by
    rw [expressRequestRun]
    rw [show buildFetchRequest c UA_EXPRESS ("/cards/" ++ cardId) "GET" [] none
        = expressCardRequest c cardId from rfl]
    simp [h]]

/-- An upstream that rejects every request with a 404. -/
def c6Env : FetchRequest → Response :=
  fun _ => { ok := false, status := 404, statusText := "Not Found",
             text := "The requested resource was not found.", jsonBody := none }

/-- C6 (witness): `GET /cards/unknown` against a 404 upstream. -/
theorem upstream_error_surfaced_as_500_witness :
    containsSeq (toString (c6Env (expressCardRequest
        { apiKey := "K", token := "T" } "unknown")).status).data
      (expressErrMsg (c6Env (expressCardRequest
        { apiKey := "K", token := "T" } "unknown"))).data = true
    ∧ getCardRoute { apiKey := "K", token := "T" } c6Env "unknown"
      = { status := 500,
          body := .obj [("error",
            .s (expressErrMsg (c6Env (expressCardRequest
              { apiKey := "K", token := "T" } "unknown"))))] } :=
  upstream_error_surfaced_as_500 { apiKey := "K", token := "T" } c6Env "unknown" rfl

/-! ### Claim C7 -/

/-- C7: an attachment payload built from an attachment of MIME type
`image/png` and a byte buffer decodes (from its `base64` field) back to
exactly that buffer, and when `includeDataUri` is requested the `dataUri`
field is `data:image/png;base64,` followed by the same base64 text. -/
theorem attachment_payload_roundtrip (att : Attachment) (bin : List Nat)
    (hdr : Option String) (includeMeta : Bool)
    (hb : ∀ x ∈ bin, x < 256) (hm : att.mimeType = some "image/png") :
    decodeB64 (buildAttachmentPayload att bin hdr true includeMeta).base64.data
      = some bin
    ∧ (buildAttachmentPayload att bin hdr true includeMeta).dataUri
      = some ("data:image/png;base64,"
          ++ (buildAttachmentPayload att bin hdr true includeMeta).base64) := by
  constructor
  · exact decodeB64_encodeB64 bin hb
  · show (if true then some _ else none) = _
    simp only [if_true]
    rw [show jsOrStr att.mimeType (jsOrStr hdr "application/octet-stream")
        = "image/png" by rw [hm]; rfl]
    rfl

/-- A PNG attachment record. -/
def c7Att : Attachment :=
  { mimeType := some "image/png", fileName := some "logo.png", name := none,
    url := "https://trello-attachments.example.com/logo.png" }

/-- The PNG signature bytes. -/
def c7Bytes : List Nat := [137, 80, 78, 71, 13, 10, 26, 10]

/-- C7 (witness). -/
theorem attachment_payload_roundtrip_witness :
    decodeB64 (buildAttachmentPayload c7Att c7Bytes none true false).base64.data
      = some c7Bytes
    ∧ (buildAttachmentPayload c7Att c7Bytes none true false).dataUri
      = some ("data:image/png;base64,"
          ++ (buildAttachmentPayload c7Att c7Bytes none true false).base64) :=
  attachment_payload_roundtrip c7Att c7Bytes none false (by decide) rfl

/-! ### Claim C8 -/

/-- C8: for every request with a body and a non-GET method, `trelloFetch`
serializes a `URLSearchParams` body as `application/x-www-form-urlencoded`
and any other body as `application/json`, setting the matching
`Content-Type` header; and every request carries the variant's fixed
identifying `User-Agent` header.  The src/index.js `trelloRequest`
likewise always attaches its fixed `User-Agent` and serializes its (always
JSON) bodies as `application/json`. -/
theorem body_serialization_headers (method : String) (body? : Option Body)
    (bj? : Option Json) (ps : Params) (j : Json) :
    getParam (buildFetchOptions UA_MCP method body?).1 "User-Agent" = some UA_MCP
    ∧ (method ≠ "GET" → body? = some (Body.form ps) →
        getParam (buildFetchOptions UA_MCP method body?).1 "Content-Type"
          = some "application/x-www-form-urlencoded"
        ∧ (buildFetchOptions UA_MCP method body?).2 = some (serializeQuery ps))
    ∧ (method ≠ "GET" → body? = some (Body.json j) →
        getParam (buildFetchOptions UA_MCP method body?).1 "Content-Type"
          = some "application/json"
        ∧ (buildFetchOptions UA_MCP method body?).2 = some (stringifyJson j))
    ∧ getParam (indexFetchOptions method bj?).1 "User-Agent" = some UA_EXPRESS
    ∧ (method ≠ "GET" → ∀ jb, bj? = some jb →
        getParam (indexFetchOptions method bj?).1 "Content-Type"
          = some "application/json"
        ∧ (indexFetchOptions method bj?).2 = some (stringifyJson jb)) := by
  refine ⟨?_, ?_, ?_, ?_, ?_⟩
  · rcases body? with _ | b
    · rfl
    · by_cases hg : method = "GET"
      · simp [buildFetchOptions, hg, getParam]
      · cases b <;> simp [buildFetchOptions, hg, getParam]
  · intro hne heq
    subst heq
    constructor <;> simp [buildFetchOptions, hne, getParam]
  · intro hne heq
    subst heq
    constructor <;> simp [buildFetchOptions, hne, getParam]
  · rcases bj? with _ | b
    · rfl
    · by_cases hg : method = "GET" <;> simp [indexFetchOptions, hg, getParam]
  · intro hne jb heq
    subst heq
    constructor <;> simp [indexFetchOptions, hne, getParam]

/-- C8 (witness): a form body and a JSON body on POST requests, plus the
index.js variant with the `archive_card` body. -/
theorem body_serialization_headers_witness :
    getParam (buildFetchOptions UA_MCP "POST"
        (some (Body.form [("idList", "L1")]))).1 "Content-Type"
      = some "application/x-www-form-urlencoded"
    ∧ (buildFetchOptions UA_MCP "POST" (some (Body.form [("idList", "L1")]))).2
      = some (serializeQuery [("idList", "L1")])
    ∧ getParam (buildFetchOptions UA_MCP "PUT"
        (some (Body.json (.obj [("closed", .b true)])))).1 "Content-Type"
      = some "application/json"
    ∧ (buildFetchOptions UA_MCP "PUT"
        (some (Body.json (.obj [("closed", .b true)])))).2
      = some (stringifyJson (.obj [("closed", .b true)]))
    ∧ getParam (buildFetchOptions UA_MCP "GET" none).1 "User-Agent" = some UA_MCP
    ∧ getParam (indexFetchOptions "PUT"
        (some (.obj [("closed", .b true)]))).1 "Content-Type"
      = some "application/json"
    ∧ (indexFetchOptions "PUT" (some (.obj [("closed", .b true)]))).2
      = some (stringifyJson (.obj [("closed", .b true)])) := by
  have hform := (body_serialization_headers "POST"
    (some (Body.form [("idList", "L1")])) none [("idList", "L1")]
    (.obj [])).2.1 (by decide) rfl
  have hjson := (body_serialization_headers "PUT"
    (some (Body.json (.obj [("closed", .b true)])))
    (some (.obj [("closed", .b true)])) [] (.obj [("closed", .b true)]))
  have hj := hjson.2.2.1 (by decide) rfl
  have hidx := hjson.2.2.2.2 (by decide) (.obj [("closed", .b true)]) rfl
  have hua := (body_serialization_headers "GET" none none [] (.obj [])).1
  exact ⟨hform.1, hform.2, hj.1, hj.2, hua, hidx.1, hidx.2⟩

/-! ### Claim C10 -/

/-- C10: the limit `get_board_activity` forwards upstream is the minimum of
the caller-supplied limit and 50, defaulting to 10 when no limit is given;
no lower bound is enforced, so a zero or negative limit is forwarded
unchanged. -/
theorem board_activity_limit (b : String) (l : Int) :
    getBoardActivityLimit (some l) = min l 50
    ∧ getBoardActivityLimit none = 10
    ∧ (l ≤ 0 → getBoardActivityLimit (some l) = l)
    ∧ getBoardActivityEndpoint b (some l)
      = "/boards/" ++ b ++ "/actions?limit=" ++ toString (min l 50) := by
  refine ⟨rfl, by decide, ?_, rfl⟩
  intro h
  show min l 50 = l
  exact min_eq_left (by omega)

/-- C10 (witness): a negative limit of -5 is forwarded unchanged. -/
theorem board_activity_limit_witness :
    getBoardActivityLimit (some (-5)) = -5 :=
  (board_activity_limit "b1" (-5)).2.2.1 (by decide)

end Trello
